import Mathlib

/-!
Shallow embedding of the PlayPalace game-server core, for checking the
natural-language specification against the code.

Sources embedded (paths relative to the repository root):
* `src/server/game_utils/actions.py` — `Action`, `ActionSet`
* `src/server/game_utils/cards.py` — `Card`, `Deck`
* `src/server/core/tick.py` — `TickScheduler._tick_loop`
* `src/server/core/server.py` — `Server._load_tables`
* `src/server/persistence/database.py` — `Database.load_all_tables`,
  `Database.delete_all_tables`
* `src/server/games/uno/game.py` — `UnoGame._apply_card_effect`,
  `UnoGame._get_next_player_id`
* `src/server/games/milebymile/game.py` — `MileByMileGame` round-timer
  persistence fields and `rebuild_runtime_state`

Some collaborators of the embedded files (`games/base.py`,
`game_utils/round_timer.py`, `tables/manager.py`, `games/registry.py`) are
not present in the source tree; where a claim depends on them they are
modelled from the specification text, and each such definition carries a
doc comment starting with `Modelled from the spec:`.
-/

namespace PlayPalace

/-! ### Python dict model

`ActionSet._actions` is a Python `dict[str, Action]`.  A Python dict keeps
keys unique and in first-insertion order; assigning to an existing key
replaces its value in place, deleting removes the key, and mutating the
value at a key leaves the key order untouched.  We model it as an
association list with those operations (first matching key is the only
matching key in every state reachable through the dict API). -/

/-- `d[k]` lookup returning `none` when the key is absent
(Python `dict.get`). -/
def dictGet {α : Type} : List (String × α) → String → Option α
  | [], _ => none
  | (k', v) :: rest, k => if k' = k then some v else dictGet rest k

/-- `k in d` (Python membership test on a dict). -/
def dictContains {α : Type} (d : List (String × α)) (k : String) : Bool :=
  (dictGet d k).isSome

/-- `d[k] = v`: replace the value at an existing key in place, otherwise
append the new key at the end (Python dict assignment). -/
def dictSet {α : Type} : List (String × α) → String → α → List (String × α)
  | [], k, v => [(k, v)]
  | (k', v') :: rest, k, v =>
      if k' = k then (k, v) :: rest else (k', v') :: dictSet rest k v

/-- `del d[k]`: remove the entry with the given key (Python dict deletion;
callers guard with a membership check first). -/
def dictDel {α : Type} : List (String × α) → String → List (String × α)
  | [], _ => []
  | (k', v) :: rest, k =>
      if k' = k then rest else (k', v) :: dictDel rest k

/-- Mutate the value stored at a key in place (`d[k].field = x` in Python);
leaves the dict unchanged when the key is absent. -/
def dictModify {α : Type} : List (String × α) → String → (α → α) →
    List (String × α)
  | [], _, _ => []
  | (k', v) :: rest, k, f =>
      if k' = k then (k', f v) :: rest else (k', v) :: dictModify rest k f

/-! ### `src/server/game_utils/actions.py` -/

/-- `MenuInput`: request a menu selection before the action executes. -/
structure MenuInput where
  prompt : String
  options : String
  bot_select : Option String := none
  deriving Repr, DecidableEq

/-- `EditboxInput`: request text input before the action executes. -/
structure EditboxInput where
  prompt : String
  default : String := ""
  bot_input : Option String := none
  deriving Repr, DecidableEq

/-- The `input_request` field of an `Action`:
`MenuInput | EditboxInput | None`. -/
inductive InputRequest where
  | menu (m : MenuInput)
  | editbox (e : EditboxInput)
  deriving Repr, DecidableEq

/-- `Action`: a game action with imperative state management
(`actions.py`). -/
structure Action where
  id : String
  label : String
  handler : String
  enabled : Bool := false
  hidden : Bool := false
  input_request : Option InputRequest := none
  deriving Repr, DecidableEq

/-- `ActionSet`: a named group of actions for a player, with a lookup dict
`_actions` and a display-order list `_order` (`actions.py`). -/
structure ActionSet where
  name : String
  _actions : List (String × Action) := []
  _order : List String := []
  deriving Repr, DecidableEq

namespace ActionSet

/-- `ActionSet.add`: `self._actions[action.id] = action;
if action.id not in self._order: self._order.append(action.id)`. -/
def add (s : ActionSet) (action : Action) : ActionSet :=
  { s with
    _actions := dictSet s._actions action.id action
    _order := if action.id ∈ s._order then s._order
              else s._order ++ [action.id] }

/-- `ActionSet.remove`: delete from the dict if present, and remove the
first occurrence from the order list if present. -/
def remove (s : ActionSet) (action_id : String) : ActionSet :=
  let acts := if dictContains s._actions action_id then
                dictDel s._actions action_id
              else s._actions
  let ord := if action_id ∈ s._order then s._order.erase action_id
             else s._order
  { s with _actions := acts, _order := ord }

/-- `ActionSet.enable`: for each id present in the dict, set
`enabled = True`. -/
def enable (s : ActionSet) (action_ids : List String) : ActionSet :=
  action_ids.foldl
    (fun s aid =>
      if dictContains s._actions aid then
        { s with
          _actions := dictModify s._actions aid
            (fun a => { a with enabled := true }) }
      else s)
    s

/-- `ActionSet.disable`: for each id present in the dict, set
`enabled = False`. -/
def disable (s : ActionSet) (action_ids : List String) : ActionSet :=
  action_ids.foldl
    (fun s aid =>
      if dictContains s._actions aid then
        { s with
          _actions := dictModify s._actions aid
            (fun a => { a with enabled := false }) }
      else s)
    s

/-- `ActionSet.show`: for each id present in the dict, set
`hidden = False`.  (`show` is a Lean keyword, hence the guillemets.) -/
def «show» (s : ActionSet) (action_ids : List String) : ActionSet :=
  action_ids.foldl
    (fun s aid =>
      if dictContains s._actions aid then
        { s with
          _actions := dictModify s._actions aid
            (fun a => { a with hidden := false }) }
      else s)
    s

/-- `ActionSet.hide`: for each id present in the dict, set
`hidden = True`. -/
def hide (s : ActionSet) (action_ids : List String) : ActionSet :=
  action_ids.foldl
    (fun s aid =>
      if dictContains s._actions aid then
        { s with
          _actions := dictModify s._actions aid
            (fun a => { a with hidden := true }) }
      else s)
    s

/-- `ActionSet.set_label`: if the id is present, set the label. -/
def set_label (s : ActionSet) (action_id : String) (label : String) :
    ActionSet :=
  if dictContains s._actions action_id then
    { s with
      _actions := dictModify s._actions action_id
        (fun a => { a with label := label }) }
  else s

/-- `ActionSet.get_action`: `self._actions.get(action_id)`. -/
def get_action (s : ActionSet) (action_id : String) : Option Action :=
  dictGet s._actions action_id

/-- `ActionSet.get_visible_actions`: the list comprehension
`[self._actions[aid] for aid in self._order if aid in self._actions and
enabled and not hidden]`. -/
def get_visible_actions (s : ActionSet) : List Action :=
  s._order.filterMap (fun aid =>
    match dictGet s._actions aid with
    | some a => if a.enabled && !a.hidden then some a else none
    | none => none)

/-- `ActionSet.get_enabled_actions`: the list comprehension
`[self._actions[aid] for aid in self._order if aid in self._actions and
enabled]`. -/
def get_enabled_actions (s : ActionSet) : List Action :=
  s._order.filterMap (fun aid =>
    match dictGet s._actions aid with
    | some a => if a.enabled then some a else none
    | none => none)

/-- The set's actions resolved through `_order` (insertion order), used to
state the order-preservation part of the spec. -/
def actionsInOrder (s : ActionSet) : List Action :=
  s._order.filterMap (fun aid => dictGet s._actions aid)

end ActionSet

/-! ### `src/server/game_utils/cards.py` -/

/-- `Card`: a playing card with an identity-bearing `id` and descriptive
`rank`/`suit` fields. -/
structure Card where
  id : Int
  rank : Int
  suit : Int
  deriving Repr, DecidableEq

/-- A Python value handed to `Card.__eq__` as `other`: either a `Card` or
some non-`Card` object (modelled by a few representative kinds). -/
inductive PyValue where
  | card (c : Card)
  | int (n : Int)
  | str (s : String)
  | noneV
  deriving Repr, DecidableEq

/-- `isinstance(other, Card)`. -/
def PyValue.isCard : PyValue → Bool
  | .card _ => true
  | _ => false

namespace Card

/-- `Card.__eq__`: `if not isinstance(other, Card): return False;
return self.id == other.id`. -/
def eqPy (c : Card) : PyValue → Bool
  | .card other => c.id == other.id
  | .int _ => false
  | .str _ => false
  | .noneV => false

/-- `Card.__hash__`: `return self.id`. -/
def hashPy (c : Card) : Int := c.id

end Card

/-- `Deck`: a deck of cards with draw operations (`cards.py`). -/
structure Deck where
  cards : List Card := []
  deriving Repr, DecidableEq

namespace Deck

/-- `Deck.draw`: `drawn = self.cards[:count]; self.cards =
self.cards[count:]; return drawn` — the drawn list paired with the deck as
mutated.  `count` is a non-negative Python int (the claim's `n ≥ 0`);
Python slicing with a non-negative bound is exactly take/drop. -/
def draw (d : Deck) (count : Nat) : List Card × Deck :=
  (d.cards.take count, { d with cards := d.cards.drop count })

/-- `Deck.size`: `len(self.cards)`. -/
def size (d : Deck) : Nat := d.cards.length

/-- `Deck.is_empty`: `len(self.cards) == 0`. -/
def is_empty (d : Deck) : Bool := d.cards.length == 0

end Deck

/-! ### `src/server/core/tick.py` — `TickScheduler._tick_loop`

The loop body is `try: self._on_tick() except Exception as e:
print(f"Error in tick: {e}")` followed by a sleep, repeated while
`self._running` holds.  We model one loop element per iteration the
scheduler performs while running: the list `cbs` gives the outcome of the
callback at each iteration (`Except.error e` models the callback raising
`e`).  The result counts the iterations the loop completed and collects
the error lines it printed; reaching the end of the list models
`_running` becoming false. -/

/-- `TickScheduler._tick_loop`, iteration by iteration: both the normal
and the exceptional branch of the `try` fall through to the sleep and the
next `while` test. -/
def tick_loop : List (Except String Unit) → Nat × List String
  | [] => (0, [])
  | cb :: rest =>
      let logLine : Option String :=
        match cb with
        | .ok _ => none
        | .error e => some ("Error in tick: " ++ e)
      let r := tick_loop rest
      (r.1 + 1,
       match logLine with
       | some m => m :: r.2
       | none => r.2)

/-! ### `src/server/persistence/database.py` and
`src/server/core/server.py` — table persistence -/

/-- A row of the `tables` table, with the fields `Database.load_table`
reads and `Database.save_table` writes (`database.py`).  The runtime
`Table` object restored from it carries the same persisted fields; the
runtime `game` object rebuilt from `game_json` is not part of the
persisted record and does not affect registration or deletion, so it is
not modelled here. -/
structure TableRec where
  table_id : String
  game_type : String
  host : String
  members_json : String
  game_json : Option String := none
  status : String := "waiting"
  deriving Repr, DecidableEq

/-- The `tables` table of the SQLite database: the set of persisted table
rows (`database.py`). -/
structure Database where
  tables : List TableRec := []
  deriving Repr, DecidableEq

namespace Database

/-- `Database.load_all_tables`: selects every `table_id` from the
`tables` table and loads each row; `load_table` returns `None` only when
no row has the id, which cannot happen for an id just selected from the
table, so every persisted row is returned. -/
def load_all_tables (db : Database) : List TableRec := db.tables

/-- `Database.delete_all_tables`: `DELETE FROM tables`. -/
def delete_all_tables (db : Database) : Database := { db with tables := [] }

end Database

/-- Modelled from the spec: `src/server/tables/manager.py` is not in the
source tree (only its callers are).  Spec §4.6: the `TableManager` is a
pure in-memory registry of live tables; `add_table(table)` registers a
table restored from storage. -/
structure TableManager where
  tables : List TableRec := []
  deriving Repr, DecidableEq

/-- Modelled from the spec: `TableManager.add_table` registers the given
table in the in-memory registry (spec §4.6, "`add_table(table)` (used
when restoring from storage)"). -/
def TableManager.add_table (m : TableManager) (t : TableRec) : TableManager :=
  { m with tables := m.tables ++ [t] }

/-- The server state relevant to `Server._load_tables`: the in-memory
table registry `_tables` and the database `_db` (`server.py`). -/
structure Server where
  _tables : TableManager := {}
  _db : Database := {}
  deriving Repr, DecidableEq

/-- `Server._load_tables`: load every persisted table row, register each
in the table manager (the per-table game restore mutates the already
registered table's runtime `game` field and its `continue` on a missing
game class skips only that restore, never the registration), then delete
all rows from the database so stale data cannot be double-restored on a
subsequent restart. -/
def Server._load_tables (s : Server) : Server :=
  let tables := s._db.load_all_tables
  let mgr := tables.foldl (fun m t => m.add_table t) s._tables
  { s with _tables := mgr, _db := s._db.delete_all_tables }

/-! ### Round timer and `MileByMileGame` persistence
(`src/server/games/milebymile/game.py`) -/

/-- The tick interval of `TickScheduler` (`tick.py`):
`TICK_INTERVAL_MS = 50`. -/
def TICK_INTERVAL_MS : Nat := 50

/-- Modelled from the spec: `src/server/game_utils/round_timer.py` is not
in the source tree (only its importers are).  Spec §4.3: the timer's
states are `idle`, `counting`, `paused`; its serialized fields are the
current state name and the remaining ticks — these are exactly the
owning game's serialized `round_timer_state` / `round_timer_ticks`
fields, so the timer object itself holds only its configuration: the
fixed delay in ticks, derived from a configured seconds value and the
tick interval. -/
structure RoundTimer where
  delay_ticks : Nat
  deriving Repr, DecidableEq

/-- Modelled from the spec: constructing `RoundTimer(game, delay_seconds)`
derives the fixed delay in ticks from the seconds value and the 50 ms
tick interval (spec §4.3). -/
def RoundTimer.ofSeconds (delay_seconds : Nat) : RoundTimer :=
  ⟨delay_seconds * 1000 / TICK_INTERVAL_MS⟩

/-- `MileByMileGame`, restricted to its round-timer persistence: the
serialized fields `round_timer_state` and `round_timer_ticks` (with the
source's defaults) together with the non-serialized runtime `_round_timer`
object that `__post_init__` and `rebuild_runtime_state` construct as
`RoundTimer(self, delay_seconds=10.0)`.  A representative further
serialized field (`current_race`) stands for the rest of the game
state. -/
structure MileByMileGame where
  round_timer_state : String := "idle"
  round_timer_ticks : Nat := 0
  current_race : Nat := 0
  _round_timer : RoundTimer := RoundTimer.ofSeconds 10
  deriving Repr, DecidableEq

/-- The JSON content `MileByMileGame.to_json` persists: every dataclass
field except runtime objects prefixed with `_` (the mashumaro mixin
serializes the declared fields; `_round_timer` is created in
`__post_init__` and is not a field). -/
structure MileByMileJson where
  round_timer_state : String
  round_timer_ticks : Nat
  current_race : Nat
  deriving Repr, DecidableEq

namespace MileByMileGame

/-- `to_json`: serialize the persisted fields. -/
def to_json (g : MileByMileGame) : MileByMileJson :=
  { round_timer_state := g.round_timer_state
    round_timer_ticks := g.round_timer_ticks
    current_race := g.current_race }

/-- `from_json`: rebuild the dataclass from the persisted fields;
`__post_init__` then constructs a fresh `RoundTimer(self,
delay_seconds=10.0)` without touching the persisted fields. -/
def from_json (j : MileByMileJson) : MileByMileGame :=
  { round_timer_state := j.round_timer_state
    round_timer_ticks := j.round_timer_ticks
    current_race := j.current_race
    _round_timer := RoundTimer.ofSeconds 10 }

/-- `MileByMileGame.rebuild_runtime_state`: reconstruct the non-serialized
runtime state — `self._round_timer = RoundTimer(self,
delay_seconds=10.0)` — leaving every serialized field, including
`round_timer_state` and `round_timer_ticks`, untouched. -/
def rebuild_runtime_state (g : MileByMileGame) : MileByMileGame :=
  { g with _round_timer := RoundTimer.ofSeconds 10 }

end MileByMileGame

/-- Modelled from the spec: `RoundTimer.start()` — `idle → counting` with
the fixed delay in ticks (spec §4.3); the state lives on the owning
game's serialized fields. -/
def RoundTimer.start (g : MileByMileGame) : MileByMileGame :=
  if g.round_timer_state = "idle" then
    { g with
      round_timer_state := "counting"
      round_timer_ticks := g._round_timer.delay_ticks }
  else g

/-- Modelled from the spec: `RoundTimer.on_tick()` — decrements the
remaining ticks while `counting`; on reaching zero, transitions to `idle`
and invokes the owning game's timer-ready callback exactly once (spec
§4.3).  The boolean reports whether the callback fired on this tick. -/
def RoundTimer.on_tick (g : MileByMileGame) : MileByMileGame × Bool :=
  if g.round_timer_state = "counting" then
    let t := g.round_timer_ticks - 1
    if t = 0 then
      ({ g with round_timer_state := "idle", round_timer_ticks := 0 }, true)
    else
      ({ g with round_timer_ticks := t }, false)
  else (g, false)

/-! ### Uno turn rotation and `UnoGame._apply_card_effect`
(`src/server/games/uno/game.py`) -/

/-- Modelled from the spec: the turn-order helper of the `Game` base class
(`src/server/games/base.py` is not in the source tree).  Spec §4.2: an
ordered list of active player ids, a current index, and a direction
(+1 or -1); `advance(skip_count)` moves the index by
`direction*(1+skip_count)` modulo the list length, where `skip_count`
models queued "skip next N players" cards (queued by
`skip_next_players` and consumed by the advance). -/
structure TurnState where
  turn_player_ids : List String
  turn_index : Nat := 0
  turn_direction : Int := 1
  pending_skips : Nat := 0
  deriving Repr, DecidableEq

/-- Modelled from the spec: `Game.skip_next_players(n)` queues `n`
players to be skipped at the next turn advance (spec §4.2). -/
def Game.skip_next_players (t : TurnState) (n : Nat) : TurnState :=
  { t with pending_skips := t.pending_skips + n }

/-- Modelled from the spec: `Game.reverse_turn_direction()` flips the
rotation direction (spec §4.2, `reverse()`). -/
def Game.reverse_turn_direction (t : TurnState) : TurnState :=
  { t with turn_direction := -t.turn_direction }

/-- Modelled from the spec: `Game.advance_turn()` moves the index by
`direction*(1+skip_count)` modulo the list length and consumes the queued
skips (spec §4.2).  Python's `%` on a positive modulus returns a value in
`[0, len)`, as `Int.emod` does. -/
def Game.advance_turn (t : TurnState) : TurnState :=
  if t.turn_player_ids.length = 0 then t
  else
    { t with
      turn_index :=
        (((t.turn_index : Int) +
            t.turn_direction * (1 + (t.pending_skips : Int))) %
          (t.turn_player_ids.length : Int)).toNat
      pending_skips := 0 }

/-- An Uno card as seen by `_apply_card_effect`: its `value` drives the
effect (`"skip"`, `"reverse"`, `"draw2"`, or anything else). -/
structure UnoCard where
  color : String
  value : String
  deriving Repr, DecidableEq

/-- `UnoGame`, restricted to the state `_apply_card_effect` touches: the
turn rotation (in the base class) and the pending forced-draw fields. -/
structure UnoGame where
  turn : TurnState
  pending_draw_target_id : Option String := none
  pending_draw_amount : Nat := 0
  deriving Repr, DecidableEq

namespace UnoGame

/-- `UnoGame._get_next_player_id`: `(self.turn_index +
self.turn_direction) % len(self.turn_player_ids)`, `None` on an empty
rotation. -/
def _get_next_player_id (g : UnoGame) : Option String :=
  if g.turn.turn_player_ids.length = 0 then none
  else
    g.turn.turn_player_ids.get?
      (((g.turn.turn_index : Int) + g.turn.turn_direction) %
        (g.turn.turn_player_ids.length : Int)).toNat

/-- `UnoGame._apply_card_effect`: `skip` queues one skip; `reverse` flips
the direction and, when exactly two players are in the rotation
(`len(self.turn_players) == 2`), additionally queues one skip; `draw2`
records the next player as the pending draw target for two cards. -/
def _apply_card_effect (g : UnoGame) (card : UnoCard) : UnoGame :=
  if card.value = "skip" then
    { g with turn := Game.skip_next_players g.turn 1 }
  else if card.value = "reverse" then
    let t := Game.reverse_turn_direction g.turn
    let t := if t.turn_player_ids.length = 2 then
               Game.skip_next_players t 1
             else t
    { g with turn := t }
  else if card.value = "draw2" then
    match g._get_next_player_id with
    | some target =>
        { g with
          pending_draw_target_id := some target
          pending_draw_amount := 2 }
    | none => g
  else g

end UnoGame

/-! ## Helper lemmas -/

theorem dictGet_dictSet {α : Type} (l : List (String × α)) (k k' : String)
    (v : α) :
    dictGet (dictSet l k v) k' = if k' = k then some v else dictGet l k' := by
  induction l with
  | nil =>
      by_cases h : k' = k
      · subst h; simp [dictSet, dictGet]
      · simp [dictSet, dictGet, h, Ne.symm h]
  | cons p rest ih =>
      obtain ⟨pk, pv⟩ := p
      by_cases hpk : pk = k
      · subst hpk
        by_cases h : k' = pk
        · subst h; simp [dictSet, dictGet]
        · simp [dictSet, dictGet, h, Ne.symm h]
      · by_cases h : k' = pk
        · subst h
          simp [dictSet, dictGet, hpk, Ne.symm hpk]
        · simp [dictSet, dictGet, hpk, h, Ne.symm h, ih]

theorem dictSet_keys {α : Type} (l : List (String × α)) (k : String) (v : α) :
    (dictSet l k v).map Prod.fst =
      if dictContains l k then l.map Prod.fst else l.map Prod.fst ++ [k] := by
  induction l with
  | nil => simp [dictSet, dictContains, dictGet]
  | cons p rest ih =>
      obtain ⟨pk, pv⟩ := p
      by_cases hpk : pk = k
      · subst hpk
        simp [dictSet, dictContains, dictGet]
      · simp only [dictSet, hpk, if_false, List.map_cons, dictContains,
          dictGet, ih, dictContains]
        by_cases hc : (dictGet rest k).isSome <;> simp [hc]

theorem dictModify_keys {α : Type} (l : List (String × α)) (k : String)
    (f : α → α) :
    (dictModify l k f).map Prod.fst = l.map Prod.fst := by
  induction l with
  | nil => simp [dictModify]
  | cons p rest ih =>
      obtain ⟨pk, pv⟩ := p
      by_cases hpk : pk = k <;> simp [dictModify, hpk, ih]

theorem dictGet_dictModify {α : Type} (l : List (String × α)) (k k' : String)
    (f : α → α) :
    dictGet (dictModify l k f) k' =
      if k' = k then (dictGet l k').map f else dictGet l k' := by
  induction l with
  | nil =>
      by_cases h : k' = k <;> simp [dictModify, dictGet, h]
  | cons p rest ih =>
      obtain ⟨pk, pv⟩ := p
      by_cases hpk : pk = k
      · subst hpk
        by_cases h : k' = pk
        · subst h; simp [dictModify, dictGet]
        · simp [dictModify, dictGet, h, Ne.symm h]
      · by_cases h : k' = pk
        · subst h
          simp [dictModify, dictGet, hpk, Ne.symm hpk]
        · simp [dictModify, dictGet, hpk, h, Ne.symm h, ih]

theorem dictContains_dictModify {α : Type} (l : List (String × α))
    (k k' : String) (f : α → α) :
    dictContains (dictModify l k f) k' = dictContains l k' := by
  by_cases h : k' = k <;> simp [dictContains, dictGet_dictModify, h]

theorem dictModify_dictModify_same {α : Type} (l : List (String × α))
    (k : String) (f : α → α) (hf : ∀ a, f (f a) = f a) :
    dictModify (dictModify l k f) k f = dictModify l k f := by
  induction l with
  | nil => simp [dictModify]
  | cons p rest ih =>
      obtain ⟨pk, pv⟩ := p
      by_cases hpk : pk = k <;> simp [dictModify, hpk, ih, hf]

theorem dictModify_comm {α : Type} (l : List (String × α)) (k₁ k₂ : String)
    (f : α → α) :
    dictModify (dictModify l k₁ f) k₂ f =
      dictModify (dictModify l k₂ f) k₁ f := by
  by_cases hk : k₁ = k₂
  · subst hk; rfl
  · induction l with
    | nil => simp [dictModify]
    | cons p rest ih =>
        obtain ⟨pk, pv⟩ := p
        by_cases h1 : pk = k₁
        · subst h1
          simp [dictModify, hk, Ne.symm hk]
        · by_cases h2 : pk = k₂
          · subst h2
            simp [dictModify, h1, Ne.symm hk, ih]
          · simp [dictModify, h1, h2, ih]

/-- One iteration of the loop shared by `enable`/`disable`/`show`/`hide`:
`if aid in self._actions: <mutate the action's field via f>`. -/
def applyStep (f : Action → Action) (s : ActionSet) (aid : String) :
    ActionSet :=
  if dictContains s._actions aid then
    { s with _actions := dictModify s._actions aid f }
  else s

/-- The whole loop `for aid in action_ids: ...` of
`enable`/`disable`/`show`/`hide`. -/
def applyAtIds (f : Action → Action) (s : ActionSet) (ids : List String) :
    ActionSet :=
  ids.foldl (applyStep f) s

theorem enable_eq_applyAtIds (s : ActionSet) (ids : List String) :
    s.enable ids = applyAtIds (fun a => { a with enabled := true }) s ids :=
  rfl

theorem disable_eq_applyAtIds (s : ActionSet) (ids : List String) :
    s.disable ids = applyAtIds (fun a => { a with enabled := false }) s ids :=
  rfl

theorem show_eq_applyAtIds (s : ActionSet) (ids : List String) :
    s.«show» ids = applyAtIds (fun a => { a with hidden := false }) s ids :=
  rfl

theorem hide_eq_applyAtIds (s : ActionSet) (ids : List String) :
    s.hide ids = applyAtIds (fun a => { a with hidden := true }) s ids :=
  rfl

theorem applyStep_idem (f : Action → Action) (hf : ∀ a, f (f a) = f a)
    (s : ActionSet) (aid : String) :
    applyStep f (applyStep f s aid) aid = applyStep f s aid := by
  unfold applyStep
  by_cases hc : dictContains s._actions aid
  · simp [hc, dictContains_dictModify, dictModify_dictModify_same _ _ _ hf]
  · simp [hc]

theorem applyStep_comm (f : Action → Action) (s : ActionSet)
    (a₁ a₂ : String) :
    applyStep f (applyStep f s a₁) a₂ = applyStep f (applyStep f s a₂) a₁ := by
  by_cases hk : a₁ = a₂
  · subst hk; rfl
  · unfold applyStep
    by_cases h1 : dictContains s._actions a₁ <;>
      by_cases h2 : dictContains s._actions a₂ <;>
      simp [h1, h2, dictContains_dictModify, dictModify_comm]

theorem applyStep_applyAtIds_comm (f : Action → Action) (s : ActionSet)
    (aid : String) (ids : List String) :
    applyStep f (applyAtIds f s ids) aid =
      applyAtIds f (applyStep f s aid) ids := by
  induction ids generalizing s with
  | nil => rfl
  | cons i rest ih =>
      show applyStep f (applyAtIds f (applyStep f s i) rest) aid =
        applyAtIds f (applyStep f (applyStep f s aid) i) rest
      rw [ih, applyStep_comm]

theorem applyAtIds_idem (f : Action → Action) (hf : ∀ a, f (f a) = f a)
    (s : ActionSet) (ids : List String) :
    applyAtIds f (applyAtIds f s ids) ids = applyAtIds f s ids := by
  induction ids generalizing s with
  | nil => rfl
  | cons i rest ih =>
      show applyAtIds f (applyStep f (applyAtIds f (applyStep f s i) rest) i)
          rest = applyAtIds f (applyStep f s i) rest
      rw [applyStep_applyAtIds_comm, applyStep_idem f hf]
      exact ih (applyStep f s i)

/-! ## Claims -/

/-- C9: for every `Deck` `d` and count `n ≥ 0`, `d.draw(n)` returns the
first `min(n, size)` cards of the deck in order and removes exactly those
cards: the drawn list is the `n`-prefix of the deck, its concatenation
with the remaining cards is the original card list (no card duplicated or
lost), its length is `min n size`, and drawing at least the whole deck
leaves the deck empty. -/
theorem Deck_draw_spec (d : Deck) (n : Nat) :
    (d.draw n).1 = d.cards.take n ∧
    (d.draw n).1 ++ ((d.draw n).2).cards = d.cards ∧
    ((d.draw n).1).length = min n d.cards.length ∧
    (d.cards.length ≤ n → ((d.draw n).2).cards = []) := by
  refine ⟨rfl, List.take_append_drop n d.cards, ?_, ?_⟩
  · simp [Deck.draw]
  · intro h
    simp [Deck.draw, List.drop_eq_nil_of_le h]

/-- Witness for C9 at a concrete two-card deck drawn with `n = 5`. -/
theorem Deck_draw_spec_witness :
    ((Deck.mk [⟨0, 1, 1⟩, ⟨1, 2, 1⟩]).draw 5).2.cards = [] :=
  (Deck_draw_spec (Deck.mk [⟨0, 1, 1⟩, ⟨1, 2, 1⟩]) 5).2.2.2 (by decide)

/-- C10: `Card` equality and hashing are determined solely by `id`:
`c1 == c2` holds iff `c1.id == c2.id` (regardless of rank or suit),
`hash(c)` equals `c.id`, and comparing a `Card` with a non-`Card` value
yields `False`. -/
theorem Card_eq_hash_spec (c1 c2 : Card) (v : PyValue) :
    (c1.eqPy (.card c2) = (c1.id == c2.id)) ∧
    ((c1.eqPy (.card c2) = true) ↔ c1.id = c2.id) ∧
    (c1.hashPy = c1.id) ∧
    (v.isCard = false → c1.eqPy v = false) := by
  refine ⟨rfl, by simp [Card.eqPy], rfl, ?_⟩
  intro h
  cases v <;> simp_all [PyValue.isCard, Card.eqPy]

/-- Witness for C10: two cards sharing an id but differing in rank and
suit compare equal, and a card compared with the integer `7` yields
`False`. -/
theorem Card_eq_hash_spec_witness :
    (Card.eqPy ⟨1, 2, 3⟩ (.card ⟨1, 9, 4⟩) = true) ∧
    (Card.eqPy ⟨1, 2, 3⟩ (.int 7) = false) :=
  ⟨(Card_eq_hash_spec ⟨1, 2, 3⟩ ⟨1, 9, 4⟩ (.int 7)).2.1.mpr rfl,
   (Card_eq_hash_spec ⟨1, 2, 3⟩ ⟨1, 9, 4⟩ (.int 7)).2.2.2 rfl⟩

/-- C6: for every sequence of tick-callback outcomes, every iteration of
`TickScheduler._tick_loop` completes and the loop proceeds to the next
tick — the iteration count equals the number of scheduled iterations
regardless of how many callbacks raise, and each raising callback
contributes exactly one caught-and-logged error line instead of
terminating the heartbeat loop. -/
theorem tick_loop_isolates_errors (cbs : List (Except String Unit)) :
    (tick_loop cbs).1 = cbs.length ∧
    (tick_loop cbs).2.length =
      cbs.countP (fun c => match c with | .error _ => true | .ok _ => false) := by
  induction cbs with
  | nil => simp [tick_loop]
  | cons cb rest ih =>
      cases cb <;>
        simp [tick_loop, List.countP_cons, ih.1, ih.2]

theorem foldl_add_table (m : TableManager) (l : List TableRec) :
    (l.foldl (fun m t => m.add_table t) m).tables = m.tables ++ l := by
  induction l generalizing m with
  | nil => simp
  | cons t rest ih =>
      show (rest.foldl (fun m t => m.add_table t) (m.add_table t)).tables =
        m.tables ++ t :: rest
      rw [ih]
      simp [TableManager.add_table]

/-- C3: after `Server._load_tables` completes, every table record that was
persisted in storage is registered in the `TableManager`, the persisted
table records have all been deleted from storage, and a second run of the
startup loading procedure restores nothing further. -/
theorem Server_load_tables_spec (s : Server) :
    (∀ t, t ∈ s._db.tables → t ∈ (Server._load_tables s)._tables.tables) ∧
    (Server._load_tables s)._db.tables = [] ∧
    (Server._load_tables (Server._load_tables s))._tables =
      (Server._load_tables s)._tables := by
  refine ⟨?_, rfl, ?_⟩
  · intro t ht
    show t ∈ (s._db.tables.foldl (fun m t => m.add_table t) s._tables).tables
    rw [foldl_add_table]
    exact List.mem_append_right _ ht
  · rfl

/-- Witness for C3: a concrete server with one persisted table record;
after loading, the record is registered and the storage is empty. -/
theorem Server_load_tables_spec_witness :
    (⟨"t1", "uno", "alice", "[]", none, "waiting"⟩ : TableRec) ∈
      (Server._load_tables
        ⟨{}, ⟨[⟨"t1", "uno", "alice", "[]", none, "waiting"⟩]⟩⟩)._tables.tables ∧
    (Server._load_tables
        ⟨{}, ⟨[⟨"t1", "uno", "alice", "[]", none, "waiting"⟩]⟩⟩)._db.tables =
      [] :=
  ⟨(Server_load_tables_spec
      ⟨{}, ⟨[⟨"t1", "uno", "alice", "[]", none, "waiting"⟩]⟩⟩).1 _
      (List.mem_singleton.mpr rfl),
   (Server_load_tables_spec
      ⟨{}, ⟨[⟨"t1", "uno", "alice", "[]", none, "waiting"⟩]⟩⟩).2.1⟩

/-- C1: `get_visible_actions()` returns exactly the actions that are
simultaneously enabled and not hidden, `get_enabled_actions()` returns
all enabled actions regardless of hidden state, the visible list is a
sub-list of the enabled list, and both are filters of the set's actions
taken in insertion order (`_order`). -/
theorem ActionSet_visible_enabled_spec (s : ActionSet) :
    s.get_visible_actions =
      s.actionsInOrder.filter (fun a => a.enabled && !a.hidden) ∧
    s.get_enabled_actions = s.actionsInOrder.filter (fun a => a.enabled) ∧
    List.Sublist s.get_visible_actions s.get_enabled_actions ∧
    List.Sublist s.get_enabled_actions s.actionsInOrder := by
  have h1 : s.get_visible_actions =
      s.actionsInOrder.filter (fun a => a.enabled && !a.hidden) := by
    unfold ActionSet.get_visible_actions ActionSet.actionsInOrder
    rw [List.filter_filterMap]
    congr 1
    funext aid
    cases dictGet s._actions aid <;> simp [Option.filter]
  have h2 : s.get_enabled_actions =
      s.actionsInOrder.filter (fun a => a.enabled) := by
    unfold ActionSet.get_enabled_actions ActionSet.actionsInOrder
    rw [List.filter_filterMap]
    congr 1
    funext aid
    cases dictGet s._actions aid <;> simp [Option.filter]
  have h12 : s.get_enabled_actions.filter (fun a => !a.hidden) =
      s.get_visible_actions := by
    rw [h1, h2, List.filter_filter]
    exact List.filter_congr (fun a _ => by rw [Bool.and_comm])
  refine ⟨h1, h2, ?_, ?_⟩
  · rw [← h12]
    exact List.filter_sublist _
  · rw [h2]
    exact List.filter_sublist _

/-- C5: `add` stores the action under its id (replacing any previous
action with that id, in place, without disturbing the other entries or
their order) and appends the id to the display order only when it is
new, so first-seen insertion order is preserved. -/
theorem ActionSet_add_spec (s : ActionSet) (a : Action) :
    (∀ k, dictGet (s.add a)._actions k =
      if k = a.id then some a else dictGet s._actions k) ∧
    ((s.add a)._actions.map Prod.fst =
      if dictContains s._actions a.id then s._actions.map Prod.fst
      else s._actions.map Prod.fst ++ [a.id]) ∧
    ((s.add a)._order =
      if a.id ∈ s._order then s._order else s._order ++ [a.id]) ∧
    (s.add a).name = s.name :=
  ⟨fun k => dictGet_dictSet s._actions a.id k a,
   dictSet_keys s._actions a.id a, rfl, rfl⟩

/-- C7: on an id that is not present in the set, `remove`, `enable`,
`disable`, `show`, `hide`, and `set_label` all return normally and leave
the `ActionSet` completely unchanged. -/
theorem ActionSet_unknown_id_noop (s : ActionSet) (aid lbl : String)
    (hd : dictGet s._actions aid = none) (ho : aid ∉ s._order) :
    s.remove aid = s ∧ s.enable [aid] = s ∧ s.disable [aid] = s ∧
    s.«show» [aid] = s ∧ s.hide [aid] = s ∧ s.set_label aid lbl = s := by
  have hc : dictContains s._actions aid = false := by
    simp [dictContains, hd]
  refine ⟨?_, ?_, ?_, ?_, ?_, ?_⟩
  · simp [ActionSet.remove, hc, ho]
  · simp [ActionSet.enable, hc]
  · simp [ActionSet.disable, hc]
  · simp [ActionSet.«show», hc]
  · simp [ActionSet.hide, hc]
  · simp [ActionSet.set_label, hc]

/-- Witness for C7 at a concrete one-action set and the absent id
`"pass"`. -/
theorem ActionSet_unknown_id_noop_witness :
    (ActionSet.remove
        ⟨"turn", [("roll", ⟨"roll", "Roll", "_action_roll", true, false,
          none⟩)], ["roll"]⟩ "pass" =
      ⟨"turn", [("roll", ⟨"roll", "Roll", "_action_roll", true, false,
        none⟩)], ["roll"]⟩) ∧
    (ActionSet.set_label
        ⟨"turn", [("roll", ⟨"roll", "Roll", "_action_roll", true, false,
          none⟩)], ["roll"]⟩ "pass" "X" =
      ⟨"turn", [("roll", ⟨"roll", "Roll", "_action_roll", true, false,
        none⟩)], ["roll"]⟩) :=
  ⟨(ActionSet_unknown_id_noop
      ⟨"turn", [("roll", ⟨"roll", "Roll", "_action_roll", true, false,
        none⟩)], ["roll"]⟩ "pass" "X" (by decide) (by decide)).1,
   (ActionSet_unknown_id_noop
      ⟨"turn", [("roll", ⟨"roll", "Roll", "_action_roll", true, false,
        none⟩)], ["roll"]⟩ "pass" "X" (by decide) (by decide)).2.2.2.2.2⟩

/-- C8: `enable`, `disable`, `show`, and `hide` are idempotent — calling
any of them twice in succession with the same ids yields exactly the same
`ActionSet` state as calling it once. -/
theorem ActionSet_toggle_idem (s : ActionSet) (ids : List String) :
    (s.enable ids).enable ids = s.enable ids ∧
    (s.disable ids).disable ids = s.disable ids ∧
    (s.«show» ids).«show» ids = s.«show» ids ∧
    (s.hide ids).hide ids = s.hide ids := by
  refine ⟨?_, ?_, ?_, ?_⟩
  · simp only [enable_eq_applyAtIds]
    exact applyAtIds_idem (fun a => { a with enabled := true })
      (fun a => rfl) s ids
  · simp only [disable_eq_applyAtIds]
    exact applyAtIds_idem (fun a => { a with enabled := false })
      (fun a => rfl) s ids
  · simp only [show_eq_applyAtIds]
    exact applyAtIds_idem (fun a => { a with hidden := false })
      (fun a => rfl) s ids
  · simp only [hide_eq_applyAtIds]
    exact applyAtIds_idem (fun a => { a with hidden := true })
      (fun a => rfl) s ids

/-- C2: a `MileByMileGame` serialized mid-countdown with `k` remaining
ticks, deserialized with `from_json` and rebuilt with
`rebuild_runtime_state`, has a round timer still in the persisted
`"counting"` state with the persisted `k` remaining ticks, and the next
timer tick counts down from `k` (to `k - 1`) rather than restarting from
the full configured delay. -/
theorem MileByMile_round_timer_resume (g : MileByMileGame) (k : Nat)
    (hs : g.round_timer_state = "counting")
    (hk : g.round_timer_ticks = k) (_hpos : 0 < k) :
    ((MileByMileGame.from_json g.to_json).rebuild_runtime_state).round_timer_state
        = "counting" ∧
    ((MileByMileGame.from_json g.to_json).rebuild_runtime_state).round_timer_ticks
        = k ∧
    (RoundTimer.on_tick
        ((MileByMileGame.from_json g.to_json).rebuild_runtime_state)).1.round_timer_ticks
        = k - 1 := by
  refine ⟨hs, hk, ?_⟩
  simp [MileByMileGame.to_json, MileByMileGame.from_json,
    MileByMileGame.rebuild_runtime_state, RoundTimer.on_tick, hs, hk]
  split <;> simp_all

/-- Witness for C2 at a concrete mid-countdown game with 5 remaining
ticks: after the persistence round trip the timer resumes at 5 and ticks
down to 4. -/
theorem MileByMile_round_timer_resume_witness :
    ((MileByMileGame.from_json
        (MileByMileGame.to_json
          ⟨"counting", 5, 1, RoundTimer.ofSeconds 10⟩)).rebuild_runtime_state).round_timer_ticks
        = 5 ∧
    (RoundTimer.on_tick
        ((MileByMileGame.from_json
          (MileByMileGame.to_json
            ⟨"counting", 5, 1,
              RoundTimer.ofSeconds 10⟩)).rebuild_runtime_state)).1.round_timer_ticks
        = 4 :=
  ⟨(MileByMile_round_timer_resume ⟨"counting", 5, 1, RoundTimer.ofSeconds 10⟩
      5 rfl rfl (by decide)).2.1,
   (MileByMile_round_timer_resume ⟨"counting", 5, 1, RoundTimer.ofSeconds 10⟩
      5 rfl rfl (by decide)).2.2⟩

/-- C4: in `UnoGame._apply_card_effect`, playing a reverse card flips the
turn direction and, with exactly two players in the rotation,
additionally queues one skip, so advancing the turn lands back on the
player who played the reverse — the same landing index a skip card
produces. -/
theorem Uno_reverse_two_players_is_skip (g : UnoGame) (c : String)
    (h2 : g.turn.turn_player_ids.length = 2)
    (hi : g.turn.turn_index < 2)
    (_hd : g.turn.turn_direction = 1 ∨ g.turn.turn_direction = -1)
    (hp : g.turn.pending_skips = 0) :
    (g._apply_card_effect ⟨c, "reverse"⟩).turn.turn_direction =
      -g.turn.turn_direction ∧
    (g._apply_card_effect ⟨c, "reverse"⟩).turn.pending_skips = 1 ∧
    (Game.advance_turn (g._apply_card_effect ⟨c, "reverse"⟩).turn).turn_index =
      g.turn.turn_index ∧
    (Game.advance_turn (g._apply_card_effect ⟨c, "reverse"⟩).turn).turn_index =
      (Game.advance_turn (g._apply_card_effect ⟨c, "skip"⟩).turn).turn_index := by
  have hrs : ¬("reverse" : String) = "skip" := by decide
  simp [UnoGame._apply_card_effect, Game.reverse_turn_direction,
    Game.skip_next_players, Game.advance_turn, hrs, h2, hp]
  omega

/-- Witness for C4 at a concrete two-player rotation (`["p1", "p2"]`,
index 0, direction +1): after a reverse the direction is flipped and the
advanced turn lands back on index 0, the player who played the card. -/
theorem Uno_reverse_two_players_is_skip_witness :
    (UnoGame._apply_card_effect ⟨⟨["p1", "p2"], 0, 1, 0⟩, none, 0⟩
        ⟨"red", "reverse"⟩).turn.turn_direction = -1 ∧
    (Game.advance_turn
        (UnoGame._apply_card_effect ⟨⟨["p1", "p2"], 0, 1, 0⟩, none, 0⟩
          ⟨"red", "reverse"⟩).turn).turn_index = 0 :=
  ⟨(Uno_reverse_two_players_is_skip ⟨⟨["p1", "p2"], 0, 1, 0⟩, none, 0⟩ "red"
      rfl (by decide) (Or.inl rfl) rfl).1,
   (Uno_reverse_two_players_is_skip ⟨⟨["p1", "p2"], 0, 1, 0⟩, none, 0⟩ "red"
      rfl (by decide) (Or.inl rfl) rfl).2.2.1⟩

end PlayPalace
